import Mathlib

/-!
Verification development for the TradeMonster relative-strength /
signal-generation / backtesting core.

The definitions below are a shallow embedding of the Python sources:
  * `src/src/strategy/signals.py`      (`VolumeSignalGenerator`)
  * `src/analysis/relative_strength.py` (`RelativeStrengthAnalyzer`)
  * `src/src/strategy/backtesting.py`  (`SectorRotationBacktester`,
    `SectorVolumeBacktester`)

Modelling conventions:
  * Prices, volumes and cash are embedded as rationals (`ℚ`); the Python
    code uses floats, and every identity proved here is an identity of the
    underlying exact arithmetic.
  * Dates are integers (`ℤ`); `pd.date_range(freq='B')` is modelled by
    passing the walked list of dates explicitly, while the calendar-day
    difference `(end_date - start_date).days` is plain integer subtraction.
  * A pandas frame indexed by date is a date-sorted association list
    `List (ℤ × _)`; the per-symbol database behind `get_price_volume_data`
    and the `PriceData` table is a function `TSym → List (ℤ × Bar)`.
  * An undefined (NaN) cell of a rolling column is `Option.none`; pandas
    comparisons with NaN evaluate to `False`, which the embedding mirrors
    by `match`-ing the `Option` and returning `false` on `none`.
  * `x ** y` on floats (used only for the annualized return) is embedded
    as real `rpow`.
-/

abbrev TSym := String

/-- Sum of a list of rationals. -/
def sumQ (l : List ℚ) : ℚ := l.foldl (· + ·) 0

/-- Arithmetic mean of a list of rationals (`0` on the empty list, which the
embedding never relies on: callers guard emptiness the way pandas NaN
propagation does). -/
def meanQ (l : List ℚ) : ℚ := sumQ l / l.length

namespace Signals

/-- One row of the frame returned by
`VolumeSignalGenerator.get_price_volume_data`: close, adjusted close and
volume of one symbol on one date. -/
structure Bar where
  close : ℚ
  adjClose : ℚ
  volume : ℚ
deriving DecidableEq, Repr

/-- Adjusted close of row `t` (junk `0` out of range; only used at indices
that are in range or guarded). -/
def adjAt (bars : List Bar) (t : ℕ) : ℚ := ((bars.map Bar.adjClose).getD t 0)

/-- Volume of row `t`. -/
def volAt (bars : List Bar) (t : ℕ) : ℚ := ((bars.map Bar.volume).getD t 0)

/-- Trailing window of width `w` ending at row `t` of a column,
`xs[t+1-w : t+1]`. -/
def trailingWindow (xs : List ℚ) (w t : ℕ) : List ℚ :=
  (xs.take (t + 1)).drop (t + 1 - w)

/-- `Series.rolling(window=w).mean()` at row `t`: undefined (`none`) until
`w` observations exist, i.e. for the first `w - 1` rows. -/
def rollingMean (xs : List ℚ) (w t : ℕ) : Option ℚ :=
  if t + 1 < w then none else some (sumQ (trailingWindow xs w t) / w)

/-- `data['price_ma']`: trailing mean of adjusted close over
`price_ma_period` rows (`signals.py` line 43). -/
def priceMA (bars : List Bar) (period t : ℕ) : Option ℚ :=
  rollingMean (bars.map Bar.adjClose) period t

/-- `data['volume_ma']`: trailing mean of volume over `volume_ma_period`
rows (`signals.py` line 44). -/
def volumeMA (bars : List Bar) (period t : ℕ) : Option ℚ :=
  rollingMean (bars.map Bar.volume) period t

/-- `data['relative_volume'] = volume / volume_ma` (`signals.py` line 47).
NaN propagates from the undefined head of `volume_ma`.  (A zero `volume_ma`
with the rationals' `x / 0 = 0` convention matches the pandas `0/0 = NaN`
comparison behaviour, because volumes are nonnegative and the trailing mean
includes the current row, so `volume_ma = 0` forces `volume = 0`, and both
`NaN > thr` and `0 > thr` are false.) -/
def relativeVolume (bars : List Bar) (period t : ℕ) : Option ℚ :=
  (volumeMA bars period t).map (fun m => volAt bars t / m)

/-- Did the adjusted close rise at row `t` versus row `t - 1`?  The first
row compares against NaN, which pandas evaluates as `False`. -/
def rose (bars : List Bar) (t : ℕ) : Bool :=
  match t with
  | 0 => false
  | n + 1 => decide (adjAt bars n < adjAt bars (n + 1))

/-- Did the adjusted close fall at row `t` versus row `t - 1`? -/
def fell (bars : List Bar) (t : ℕ) : Bool :=
  match t with
  | 0 => false
  | n + 1 => decide (adjAt bars (n + 1) < adjAt bars n)

/-- Per-row OBV delta produced by the two masked assignments of
`signals.py` lines 53-55: the column starts at `0`, rows where the close
rose are set to `+volume`, rows where it fell to `-volume` (the two masks
are disjoint, so applying them in sequence is this three-way split). -/
def obvDelta (bars : List Bar) (t : ℕ) : ℚ :=
  if rose bars t then volAt bars t
  else if fell bars t then -(volAt bars t)
  else 0

/-- Running-sum helper for `Series.cumsum()`. -/
def cumsumFrom (acc : ℚ) : List ℚ → List ℚ
  | [] => []
  | x :: xs => (acc + x) :: cumsumFrom (acc + x) xs

/-- `Series.cumsum()`. -/
def cumsum (l : List ℚ) : List ℚ := cumsumFrom 0 l

/-- `data['obv']`: the masked-assignment delta column followed by
`cumsum()` (`signals.py` lines 53-56). -/
def obvList (bars : List Bar) : List ℚ :=
  cumsum ((List.range bars.length).map (obvDelta bars))

/-- OBV value at row `t`. -/
def obvAt (bars : List Bar) (t : ℕ) : ℚ := (obvList bars).getD t 0

/-- Reference OBV from the specification: cumulative sum, seeded at 0, of
per-row deltas; the first row (no predecessor) contributes 0. -/
def obvRef (bars : List Bar) : ℕ → ℚ
  | 0 => obvDelta bars 0
  | t + 1 => obvRef bars t + obvDelta bars (t + 1)

/-- `data['above_ma'] = adjusted_close > price_ma` (`signals.py` line 83);
the NaN head of `price_ma` compares as `False`. -/
def aboveMA (bars : List Bar) (period t : ℕ) : Bool :=
  match priceMA bars period t with
  | none => false
  | some m => decide (m < adjAt bars t)

/-- Number of rows among the trailing `trendDays` rows ending at `t` on
which `above_ma` holds (the value summed by
`above_ma.rolling(trend_days).sum()`). -/
def countAbove (bars : List Bar) (period trendDays t : ℕ) : ℕ :=
  ((List.range trendDays).map (fun k => t + k + 1 - trendDays)).countP
    (fun i => aboveMA bars period i)

/-- `data['uptrend'] = above_ma.rolling(trend_days).sum() >= trend_days * 0.8`
(`signals.py` line 86): undefined (hence `False`) for the first
`trend_days - 1` rows. -/
def uptrend (bars : List Bar) (period trendDays t : ℕ) : Bool :=
  if t + 1 < trendDays then false
  else decide ((4 / 5 : ℚ) * trendDays ≤ (countAbove bars period trendDays t : ℚ))

/-- `data['high_volume'] = relative_volume > threshold_volume`
(`signals.py` line 89). -/
def highVolume (bars : List Bar) (period : ℕ) (threshold : ℚ) (t : ℕ) : Bool :=
  match relativeVolume bars period t with
  | none => false
  | some r => decide (threshold < r)

/-- `data['obv_increasing'] = obv > obv.shift(5)` (`signals.py` line 92):
`False` on the first 5 rows where the shift is NaN. -/
def obvIncreasing (bars : List Bar) (t : ℕ) : Bool :=
  if t < 5 then false else decide (obvAt bars (t - 5) < obvAt bars t)

/-- `data['buy_signal'] = uptrend & high_volume & obv_increasing`
(`signals.py` line 95), with the hard-coded indicator windows of
`calculate_volume_indicators` exposed as `period`. -/
def buySignal (bars : List Bar) (period : ℕ) (threshold : ℚ) (trendDays t : ℕ) : Bool :=
  uptrend bars period trendDays t && highVolume bars period threshold t &&
    obvIncreasing bars t

/-- `data['below_ma'] = adjusted_close < price_ma` (`signals.py` line 115). -/
def belowMA (bars : List Bar) (period t : ℕ) : Bool :=
  match priceMA bars period t with
  | none => false
  | some m => decide (adjAt bars t < m)

/-- Count of `below_ma` rows in the trailing `trendDays` window. -/
def countBelow (bars : List Bar) (period trendDays t : ℕ) : ℕ :=
  ((List.range trendDays).map (fun k => t + k + 1 - trendDays)).countP
    (fun i => belowMA bars period i)

/-- `data['downtrend']` (`signals.py` line 118). -/
def downtrend (bars : List Bar) (period trendDays t : ℕ) : Bool :=
  if t + 1 < trendDays then false
  else decide ((4 / 5 : ℚ) * trendDays ≤ (countBelow bars period trendDays t : ℚ))

/-- `data['obv_decreasing'] = obv < obv.shift(5)` (`signals.py` line 124). -/
def obvDecreasing (bars : List Bar) (t : ℕ) : Bool :=
  if t < 5 then false else decide (obvAt bars t < obvAt bars (t - 5))

/-- `data['sell_signal'] = downtrend & high_volume & obv_decreasing`
(`signals.py` line 127). -/
def sellSignal (bars : List Bar) (period : ℕ) (threshold : ℚ) (trendDays t : ℕ) : Bool :=
  downtrend bars period trendDays t && highVolume bars period threshold t &&
    obvDecreasing bars t

end Signals

namespace RS

open Signals (Bar)

/-- Table shape of `calculate_relative_strength`'s result: one
relative-strength series per ETF symbol (the pandas dict-of-Series that is
combined into a wide frame; a symbol missing a date of the combined index
simply has no entry, mirroring the NaN gap of the outer join). -/
abbrev RSTable := List (TSym × List (ℤ × ℚ))

/-- Table of normalized scores (`normalize_relative_strength`'s result). -/
abbrev NormTable := List (TSym × List (ℤ × ℝ))

/-- The `(date, adjusted_close)` view of one symbol's rows that
`calculate_relative_strength` loads from the `PriceData` table. -/
def closes (db : TSym → List (ℤ × Bar)) (s : TSym) : List (ℤ × ℚ) :=
  (db s).map (fun p => (p.1, p.2.adjClose))

/-- `benchmark_data.join(etf_data, how='inner')`: keep the benchmark rows
whose date also appears in the ETF frame, in benchmark index order. -/
def innerJoin (bench etf : List (ℤ × ℚ)) : List (ℤ × ℚ × ℚ) :=
  bench.filterMap (fun p =>
    (etf.find? (fun q => q.1 = p.1)).map (fun q => (p.1, p.2, q.2)))

/-- Walk of the joined rows after the first: carries the previous closes
(for `pct_change`) and the running cumulative-return products (`cumprod` of
`1 + return`), emitting the ratio `etf_cum_returns / benchmark_cum_returns`
(`relative_strength.py` lines 69-78). -/
def rsTail (prevB prevE cumB cumE : ℚ) : List (ℤ × ℚ × ℚ) → List (ℤ × ℚ)
  | [] => []
  | (d, b, e) :: rest =>
    let cumB1 := cumB * (1 + (b - prevB) / prevB)
    let cumE1 := cumE * (1 + (e - prevE) / prevE)
    (d, cumE1 / cumB1) :: rsTail b e cumB1 cumE1 rest

/-- Relative-strength series of one ETF against the benchmark.  The first
joined row has NaN returns (`pct_change` has no prior row) and is removed
by `dropna`, so the output starts at the second joined date. -/
def rsSeries (bench etf : List (ℤ × ℚ)) : List (ℤ × ℚ) :=
  match innerJoin bench etf with
  | [] => []
  | (_, b0, e0) :: rest => rsTail b0 e0 1 1 rest

/-- `RelativeStrengthAnalyzer.calculate_relative_strength`: fails
(`ValueError`) when the benchmark has no rows; ETFs with no rows or no
overlapping dates are skipped non-fatally. -/
def calcRS (db : TSym → List (ℤ × Bar)) (etfSymbols : List TSym)
    (benchmark : TSym) : Except String RSTable :=
  if (closes db benchmark).isEmpty then
    .error ("No data found for benchmark " ++ benchmark)
  else
    .ok (etfSymbols.filterMap (fun s =>
      let data := closes db s
      if data.isEmpty then none
      else if (innerJoin (closes db benchmark) data).isEmpty then none
      else some (s, rsSeries (closes db benchmark) data)))

/-- Values of one column of an `RSTable`. -/
def colVals (ser : List (ℤ × ℚ)) : List ℚ := ser.map Prod.snd

/-- Sample standard deviation with `ddof = 1` (pandas `Series.std()`). -/
noncomputable def sampleStd (vals : List ℚ) : ℝ :=
  Real.sqrt
    ((vals.map (fun x => ((x : ℝ) - (meanQ vals : ℝ)) ^ 2)).sum /
      ((vals.length : ℝ) - 1))

/-- Z-score branch of `normalize_relative_strength`:
`(rs_df - rs_df.mean()) / rs_df.std()` column by column. -/
noncomputable def zscoreTable (tbl : RSTable) : NormTable :=
  tbl.map (fun c =>
    (c.1, c.2.map (fun p =>
      (p.1, ((p.2 : ℝ) - (meanQ (colVals c.2) : ℝ)) / sampleStd (colVals c.2)))))

/-- Minimum of a list of rationals (callers guard emptiness). -/
def colMin (vals : List ℚ) : ℚ :=
  match vals with
  | [] => 0
  | x :: xs => xs.foldl min x

/-- Maximum of a list of rationals. -/
def colMax (vals : List ℚ) : ℚ :=
  match vals with
  | [] => 0
  | x :: xs => xs.foldl max x

/-- Min-max branch: `(rs_df - rs_df.min()) / (rs_df.max() - rs_df.min())`. -/
def minmaxTable (tbl : RSTable) : NormTable :=
  tbl.map (fun c =>
    (c.1, c.2.map (fun p =>
      (p.1, (((p.2 - colMin (colVals c.2)) /
        (colMax (colVals c.2) - colMin (colVals c.2)) : ℚ) : ℝ)))))

/-- Percentile rank of `x` within a column: pandas `rank(pct=True)` with the
default `average` tie method, i.e. the mean ordinal rank of the tied block
divided by the number of observations. -/
def pctRank (vals : List ℚ) (x : ℚ) : ℚ :=
  ((vals.countP (fun y => decide (y < x)) : ℚ) +
      ((vals.countP (fun y => decide (y = x)) : ℚ) + 1) / 2) /
    vals.length

/-- Percentile-rank branch: `rs_df.rank(pct=True)`. -/
def percentRankTable (tbl : RSTable) : NormTable :=
  tbl.map (fun c =>
    (c.1, c.2.map (fun p => (p.1, ((pctRank (colVals c.2) p.2 : ℚ) : ℝ)))))

/-- `RelativeStrengthAnalyzer.normalize_relative_strength`: dispatch on the
method string; any other string raises `ValueError` (lines 104-128). -/
noncomputable def normalizeRelativeStrength (tbl : RSTable) (method : String) :
    Except String NormTable :=
  if method = "z_score" then .ok (zscoreTable tbl)
  else if method = "min_max" then .ok (minmaxTable tbl)
  else if method = "percent_rank" then .ok (percentRankTable tbl)
  else .error ("Unknown normalization method: " ++ method)

/-- Sorted union of the dates of all columns: the index of the combined
wide DataFrame. -/
def unionDates {α : Type} (tbl : List (TSym × List (ℤ × α))) : List ℤ :=
  List.insertionSort (· ≤ ·) ((tbl.flatMap (fun c => c.2.map Prod.fst)).dedup)

/-- Trailing-`lookback` per-column means,
`normalized_rs.iloc[-lookback_period:].mean()`: the positional slice is
taken on the combined index; a column's mean skips its missing cells, and a
column with no observation in the slice has NaN mean and is dropped by
`nlargest`. -/
noncomputable def rankMeans (tbl : NormTable) (lookback : ℕ) : List (TSym × ℝ) :=
  let idx := unionDates tbl
  let recent := idx.drop (idx.length - lookback)
  tbl.filterMap (fun c =>
    let vals := (c.2.filter (fun p => recent.contains p.1)).map Prod.snd
    match vals with
    | [] => none
    | v :: vs => some (c.1, (v :: vs).sum / (v :: vs).length))

/-- `RelativeStrengthAnalyzer.get_sector_rotation`: descending stable sort
of the trailing means (`Series.nlargest(top_n, keep='first')`), then the
first `top_n` column labels (lines 130-148). -/
noncomputable def sectorRotationList (tbl : NormTable) (topN lookback : ℕ) :
    List TSym :=
  ((List.insertionSort (fun p q : TSym × ℝ => q.2 ≤ p.2)
      (rankMeans tbl lookback)).map Prod.fst).take topN

end RS

namespace Backtest

open Signals

/-- One entry of `self.trades` in either backtester. -/
structure Trade where
  date : ℤ
  symbol : TSym
  action : String
  shares : ℚ
  price : ℚ
  value : ℚ
deriving DecidableEq, Repr

/-- `self.initial_capital = 10000`, hard-coded in both backtesters. -/
def initialCapital : ℚ := 10000

/-- `date_str in price_data[symbol].index`. -/
def hasDate (frame : List (ℤ × Bar)) (d : ℤ) : Bool :=
  frame.any (fun p => p.1 = d)

/-- `price_data[symbol].loc[date_str, 'adjusted_close']`, `none` when the
date is absent (the code only reads it behind a membership check). -/
def adjCloseAt (frame : List (ℤ × Bar)) (d : ℤ) : Option ℚ :=
  (frame.find? (fun p => p.1 = d)).map (fun p => p.2.adjClose)

/-- The tradability gate of `SectorRotationBacktester.run_backtest` lines
66-73: a day is processed only when every tracked ETF symbol (the benchmark
is not checked) has a price bar. -/
def tradable (db : TSym → List (ℤ × Bar)) (etfSymbols : List TSym) (d : ℤ) :
    Bool :=
  etfSymbols.all (fun s => hasDate (db s) d)

/-- `price_data[sector].loc[:date_str]`: the bars of one symbol up to and
including the day. -/
def barsUpTo (frame : List (ℤ × Bar)) (d : ℤ) : List Bar :=
  (frame.filter (fun p => decide (p.1 ≤ d))).map Prod.snd

/-- The buy-candidate filter of lines 100-109: recompute the volume
indicators and buy signals on the price data up to the day (window and
trend-day defaults of `calculate_volume_indicators` /
`generate_buy_signals`), then ask whether any of the last 5 rows fired. -/
def hasRecentBuy (bars : List Bar) (threshold : ℚ) : Bool :=
  ((List.range bars.length).drop (bars.length - 5)).any
    (fun t => buySignal bars 20 threshold 5 t)

/-- Mark-to-market of lines 76-81: cash plus `shares * adjusted_close` of
every position whose symbol has a bar that day. -/
def markToMarket (db : TSym → List (ℤ × Bar)) (d : ℤ) (cash : ℚ)
    (positions : List (TSym × ℚ)) : ℚ :=
  positions.foldl
    (fun acc p =>
      match adjCloseAt (db p.1) d with
      | some price => acc + p.2 * price
      | none => acc)
    cash

/-- `self.positions[symbol] = shares` on a Python dict: overwrite the
existing key or append a new one. -/
def dictSet (l : List (TSym × ℚ)) (s : TSym) (v : ℚ) : List (TSym × ℚ) :=
  if l.any (fun p => p.1 = s) then
    l.map (fun p => if p.1 = s then (s, v) else p)
  else l ++ [(s, v)]

/-- Liquidation loop of lines 111-127, walking the positions in order: sell
every position that has a price that day (one SELL trade each, cash grows
by `shares * price`); positions without a bar stay held. -/
def liquidateAll (db : TSym → List (ℤ × Bar)) (d : ℤ) (cash : ℚ) :
    List (TSym × ℚ) → ℚ × List (TSym × ℚ) × List Trade
  | [] => (cash, [], [])
  | p :: ps =>
    match adjCloseAt (db p.1) d with
    | some price =>
      match liquidateAll db d (cash + p.2 * price) ps with
      | (c, kept, ts) =>
        (c, kept, ⟨d, p.1, "SELL", p.2, price, p.2 * price⟩ :: ts)
    | none =>
      match liquidateAll db d cash ps with
      | (c, kept, ts) => (c, p :: kept, ts)

/-- Buy loop of lines 129-147, walking the candidates in order: equal
allocation per candidate, fractional shares, one BUY trade per candidate
that has a bar that day (candidates without one are skipped, leaving their
allocation as cash). -/
def buyAll (db : TSym → List (ℤ × Bar)) (d : ℤ) (alloc : ℚ) :
    List TSym → ℚ → List (TSym × ℚ) → List Trade →
      ℚ × List (TSym × ℚ) × List Trade
  | [], cash, positions, trades => (cash, positions, trades)
  | s :: rest, cash, positions, trades =>
    match adjCloseAt (db s) d with
    | some price =>
      buyAll db d alloc rest (cash - alloc) (dictSet positions s (alloc / price))
        (trades ++ [⟨d, s, "BUY", alloc / price, price, alloc⟩])
    | none => buyAll db d alloc rest cash positions trades

/-- The atomic rebalance of lines 111-147: liquidate everything priced,
then (if any candidates) split the resulting cash equally and buy. -/
def rebalanceExec (db : TSym → List (ℤ × Bar)) (d : ℤ) (cands : List TSym)
    (cash : ℚ) (positions : List (TSym × ℚ)) (trades : List Trade) :
    ℚ × List (TSym × ℚ) × List Trade :=
  match liquidateAll db d cash positions with
  | (cash1, kept, sells) =>
    if cands.isEmpty then (cash1, kept, trades ++ sells)
    else buyAll db d (cash1 / cands.length) cands cash1 kept (trades ++ sells)

/-- Mutable state of `SectorRotationBacktester` during `run_backtest`. -/
structure RotState where
  cash : ℚ
  positions : List (TSym × ℚ)
  values : List (ℤ × ℚ)
  trades : List Trade
  lastRebalance : Option ℤ
deriving Repr

/-- The cadence test of line 89:
`last_rebalance_date is None or (current_date - last_rebalance_date).days >= rebalance_freq`. -/
def rebalanceDue (last : Option ℤ) (d : ℤ) (freq : ℤ) : Bool :=
  match last with
  | none => true
  | some l => decide (freq ≤ d - l)

/-- One iteration of the day loop of `SectorRotationBacktester.run_backtest`
(lines 62-149).  Skipped days leave the state untouched; processed days
append a mark-to-market sample and, when the cadence test passes AND the
day appears in the relative-strength index, run the rebalance (ranking the
z-score-normalized relative strength up to the day, filtering by recent buy
signals, liquidating, buying) and record the day as the last rebalance. -/
noncomputable def rotStep (db : TSym → List (ℤ × Bar)) (etfSymbols : List TSym)
    (rsData : RS.RSTable) (freq : ℤ) (topN : ℕ) (threshold : ℚ)
    (st : RotState) (d : ℤ) : RotState :=
  if tradable db etfSymbols d then
    let value := markToMarket db d st.cash st.positions
    let st1 := { st with values := st.values ++ [(d, value)] }
    if rebalanceDue st1.lastRebalance d freq then
      if (RS.unionDates rsData).contains d then
        let currentRS := rsData.map (fun c =>
          (c.1, c.2.filter (fun p => decide (p.1 ≤ d))))
        let normalized := RS.zscoreTable currentRS
        let topSectors := RS.sectorRotationList normalized topN 20
        let buyCandidates := topSectors.filter (fun s =>
          hasDate (db s) d && hasRecentBuy (barsUpTo (db s) d) threshold)
        match rebalanceExec db d buyCandidates st1.cash st1.positions st1.trades with
        | (cash2, pos2, trades2) =>
          { cash := cash2, positions := pos2, values := st1.values,
            trades := trades2, lastRebalance := some d }
      else st1
    else st1
  else st

/-- `SectorRotationBacktester.run_backtest` up to the performance analysis:
compute the relative strength once (propagating the benchmark
`ValueError`), then fold the day loop over the walked dates. -/
noncomputable def runRotation (db : TSym → List (ℤ × Bar)) (dates : List ℤ)
    (etfSymbols : List TSym) (benchmark : TSym) (freq : ℤ) (topN : ℕ)
    (threshold : ℚ) : Except String RotState :=
  match RS.calcRS db etfSymbols benchmark with
  | .error e => .error e
  | .ok rsData =>
    .ok (dates.foldl (rotStep db etfSymbols rsData freq topN threshold)
      { cash := initialCapital, positions := [], values := [], trades := [],
        lastRebalance := none })

/-- Mutable state of `SectorVolumeBacktester` during `run_backtest`:
`holding` mirrors the flag, `shares` the single dict entry. -/
structure VolState where
  holding : Bool
  cash : ℚ
  shares : ℚ
  values : List (ℤ × ℚ)
  trades : List Trade
deriving Repr

/-- One row of the signal-annotated frame iterated by
`SectorVolumeBacktester.run_backtest`. -/
structure VolRow where
  date : ℤ
  buy : Bool
  sell : Bool
  adjClose : ℚ
deriving Repr

/-- One iteration of the row loop (lines 230-275): the buy branch (flat,
positive cash, buy signal), else the sell branch (long, sell signal), else
nothing; then a mark-to-market sample of the row. -/
def volStep (symbol : TSym) (st : VolState) (row : VolRow) : VolState :=
  let st1 :=
    if row.buy && !st.holding && decide (0 < st.cash) then
      let shares := st.cash / row.adjClose
      { st with
          holding := true, cash := 0, shares := shares,
          trades := st.trades ++
          [⟨row.date, symbol, "BUY", shares, row.adjClose, shares * row.adjClose⟩] }
    else if row.sell && st.holding then
      let value := st.shares * row.adjClose
      { st with
          holding := false, cash := st.cash + value, shares := 0,
          trades := st.trades ++
            [⟨row.date, symbol, "SELL", st.shares, row.adjClose, value⟩] }
    else st
  { st1 with
      values := st1.values ++
        [(row.date, st1.cash + (if st1.holding then st1.shares * row.adjClose else 0))] }

/-- End-of-period liquidation of lines 277-292: if still long, sell at the
last available price, recorded as a distinct `SELL (End)` trade. -/
def endLiquidate (symbol : TSym) (lastDate : ℤ) (lastPrice : ℚ)
    (st : VolState) : VolState :=
  if st.holding then
    let value := st.shares * lastPrice
    { st with
        holding := false, cash := st.cash + value, shares := 0,
        trades := st.trades ++
          [⟨lastDate, symbol, "SELL (End)", st.shares, lastPrice, value⟩] }
  else st

/-- The signal-annotated rows of the single-instrument backtest: indicators
and buy/sell signals with the hard-coded defaults of lines 211-213 (window
20, threshold 1.5, trend days 5). -/
def volRows (frame : List (ℤ × Bar)) : List VolRow :=
  let bars := frame.map Prod.snd
  (List.range bars.length).map (fun t =>
    { date := (frame.map Prod.fst).getD t 0,
      buy := buySignal bars 20 (3 / 2) 5 t,
      sell := sellSignal bars 20 (3 / 2) 5 t,
      adjClose := adjAt bars t })

/-- The simulation phase of `SectorVolumeBacktester.run_backtest` (data
loading, signal generation, the row loop, and the end-of-period
liquidation), before any performance statistic is computed. -/
def simulateVol (symbol : TSym) (frame : List (ℤ × Bar)) : VolState :=
  let st := (volRows frame).foldl (volStep symbol)
    { holding := false, cash := initialCapital, shares := 0, values := [],
      trades := [] }
  match frame.getLast? with
  | none => st
  | some p => endLiquidate symbol p.1 p.2.adjClose st

/-- Errors the analysis phase of either backtester can raise, in Python
exception terms: `emptyPortfolio` models the `KeyError`/`IndexError` on an
empty portfolio frame, `zeroDivisionError` the `ZeroDivisionError` from
`365 / days` when `days = 0`. -/
inductive BtError where
  | emptyPortfolio
  | zeroDivisionError
deriving DecidableEq, Repr

/-- The annualized-return formula of lines 165-166 / 312-313 (reported
multiplied by 100): `((final_value / initial_capital) ** (365 / days) - 1) * 100`. -/
noncomputable def annualReturnPct (finalValue initCap : ℚ) (days : ℤ) : ℝ :=
  (((finalValue : ℝ) / (initCap : ℝ)) ^ ((365 : ℝ) / (days : ℝ)) - 1) * 100

/-- Running maximum continuing from `m` (`Series.cummax()` tail). -/
def cummaxFrom (m : ℚ) : List ℚ → List ℚ
  | [] => []
  | x :: xs => max m x :: cummaxFrom (max m x) xs

/-- `Series.cummax()`. -/
def cummax (l : List ℚ) : List ℚ :=
  match l with
  | [] => []
  | x :: xs => x :: cummaxFrom x xs

/-- Minimum of a list (`Series.min()`), with a default for the empty list
that callers never reach. -/
def minOfList (l : List ℚ) (dflt : ℚ) : ℚ :=
  match l with
  | [] => dflt
  | x :: xs => xs.foldl min x

/-- The result record of `SectorVolumeBacktester.run_backtest` (numeric
fields of the returned dict, lines 323-334). -/
structure VolResult where
  initCap : ℚ
  finalValue : ℚ
  totalReturn : ℚ
  annualReturn : ℝ
  maxDrawdown : ℚ
  numTrades : ℕ

/-- The result record of `SectorRotationBacktester.run_backtest` (numeric
fields of the returned dict, lines 171-180 — note: no drawdown field). -/
structure RotResult where
  initCap : ℚ
  finalValue : ℚ
  totalReturn : ℚ
  annualReturn : ℝ
  numTrades : ℕ

/-- Analysis phase of `SectorVolumeBacktester.run_backtest` (lines
294-334), in the source's execution order: building the portfolio frame
fails on an empty run; `days = end_date - start_date` is used unguarded in
`365 / days`, which raises `ZeroDivisionError not an InvalidDateRange
guard` when the dates coincide; otherwise all statistics are produced. -/
noncomputable def analyzeVol (st : VolState) (startD endD : ℤ) :
    Except BtError VolResult :=
  match (st.values.map Prod.snd).getLast? with
  | none => .error .emptyPortfolio
  | some fv =>
    let days := endD - startD
    if days = 0 then .error .zeroDivisionError
    else
      let vals := st.values.map Prod.snd
      .ok
        { initCap := initialCapital, finalValue := fv,
          totalReturn := (fv - initialCapital) / initialCapital * 100,
          annualReturn := annualReturnPct fv initialCapital days,
          maxDrawdown :=
            minOfList (List.zipWith (fun v m => (v - m) / m * 100) vals (cummax vals)) 0,
          numTrades := st.trades.length }

/-- Analysis phase of `SectorRotationBacktester.run_backtest` (lines
151-180): same return and annualization arithmetic, no drawdown. -/
noncomputable def analyzeRot (st : RotState) (startD endD : ℤ) :
    Except BtError RotResult :=
  match (st.values.map Prod.snd).getLast? with
  | none => .error .emptyPortfolio
  | some fv =>
    let days := endD - startD
    if days = 0 then .error .zeroDivisionError
    else
      .ok
        { initCap := initialCapital, finalValue := fv,
          totalReturn := (fv - initialCapital) / initialCapital * 100,
          annualReturn := annualReturnPct fv initialCapital days,
          numTrades := st.trades.length }

/-- `SectorVolumeBacktester.run_backtest` end to end: load the symbol's
rows in the date range, simulate, then analyze. -/
noncomputable def runVolBacktest (db : TSym → List (ℤ × Bar)) (symbol : TSym)
    (startD endD : ℤ) : Except BtError VolResult :=
  let frame := (db symbol).filter
    (fun p => decide (startD ≤ p.1) && decide (p.1 ≤ endD))
  analyzeVol (simulateVol symbol frame) startD endD

/-- Keys of the dict returned by `SectorRotationBacktester.run_backtest`
(lines 171-180). -/
def rotationResultKeys : List String :=
  ["portfolio_value", "benchmark", "trades", "initial_capital",
   "final_value", "total_return", "annual_return", "num_trades"]

/-- Keys of the dict returned by `SectorVolumeBacktester.run_backtest`
(lines 323-334). -/
def volumeResultKeys : List String :=
  ["portfolio_value", "etf_data", "benchmark", "trades", "initial_capital",
   "final_value", "total_return", "annual_return", "max_drawdown",
   "num_trades"]

end Backtest

/-- Mark-to-market value of the single-instrument state at a row's
adjusted close, as sampled by lines 267-275: cash plus `shares * price`
for the held position, if any. -/
def Backtest.volValue (st : Backtest.VolState) (price : ℚ) : ℚ :=
  st.cash + (if st.holding then st.shares * price else 0)

/-- A flat price series: the same value on every date. -/
def constSeries (dates : List ℤ) (c : ℚ) : List (ℤ × ℚ) :=
  dates.map (fun d => (d, c))

/-- Price database of the C3 counterexample run.  ETF `"A"` trades on days
0-24 with strictly increasing adjusted close `day + 1` and volume 1 except
for a spike of 100 on day 22 (which fires the buy signal there); the
benchmark `"B"` is flat at 1 but has no bars after day 22, so days 23 and
24 are absent from the relative-strength index while `"A"` itself still
trades (the tradability gate checks only the ETF symbols). -/
def rotCexDb : TSym → List (ℤ × Signals.Bar) := fun s =>
  if s = "A" then
    (List.range 25).map (fun i =>
      ((i : ℤ), ⟨(i : ℚ) + 1, (i : ℚ) + 1, if i = 22 then 100 else 1⟩))
  else if s = "B" then
    (List.range 23).map (fun i => ((i : ℤ), ⟨1, 1, 1⟩))
  else []

/-- The walked business days of the C3 counterexample run. -/
def rotCexDates : List ℤ := (List.range 25).map (fun i => (i : ℤ))

/-! ## Helper lemmas -/

theorem cumsumFrom_append (acc : ℚ) (l1 l2 : List ℚ) :
    Signals.cumsumFrom acc (l1 ++ l2) =
      Signals.cumsumFrom acc l1 ++ Signals.cumsumFrom (acc + l1.sum) l2 := by
  induction l1 generalizing acc with
  | nil => simp [Signals.cumsumFrom]
  | cons x xs ih =>
    simp only [List.cons_append, List.append_eq, Signals.cumsumFrom, ih,
      List.sum_cons, add_assoc]

theorem obvRef_eq_sum (bars : List Signals.Bar) (t : ℕ) :
    Signals.obvRef bars t = ((List.range (t + 1)).map (Signals.obvDelta bars)).sum := by
  induction t with
  | zero => simp [Signals.obvRef, List.range_succ]
  | succ n ih =>
    rw [Signals.obvRef, ih]
    simp [List.range_succ, add_assoc]

theorem cumsum_map_range (f : ℕ → ℚ) (n : ℕ) :
    Signals.cumsum ((List.range n).map f) =
      (List.range n).map (fun t => ((List.range (t + 1)).map f).sum) := by
  induction n with
  | zero => simp [Signals.cumsum, Signals.cumsumFrom]
  | succ m ih =>
    rw [List.range_succ, List.map_append, Signals.cumsum, cumsumFrom_append,
      ← Signals.cumsum, ih, List.map_append]
    simp [Signals.cumsumFrom, List.range_succ]

/-! ## C8 — OBV: masked assignment + cumsum equals the recursive reference -/

/-- C8: for every price/volume series, the `obv` column computed by the
masked-assignment-then-`cumsum` implementation equals, at every row, the
recursive reference definition: a cumulative sum seeded at 0 whose per-row
delta is `+volume` on a rise, `-volume` on a fall, and `0` otherwise (the
first row, having no predecessor, contributes 0). -/
theorem obv_cumsum_eq_recursive (bars : List Signals.Bar) :
    Signals.obvList bars = (List.range bars.length).map (Signals.obvRef bars) := by
  rw [Signals.obvList, cumsum_map_range]
  exact (List.map_congr_left (fun t _ => (obvRef_eq_sum bars t).symm))

/-! ## C4 — result keys of the two backtest entry points -/

/-- C4 counterexample: the claim states that the rotation variant's result
includes a `max_drawdown` field, but the dict returned by
`SectorRotationBacktester.run_backtest` has no such key. -/
theorem rotation_result_missing_drawdown_cex :
    "max_drawdown" ∉ Backtest.rotationResultKeys := by decide

/-- C4 (amended): both entry points return initial capital, final value,
total return, annualized return, the trade ledger and the value series, and
the single-instrument variant additionally returns `max_drawdown`; the
rotation variant's result has no `max_drawdown` key. -/
theorem backtest_result_keys :
    ("initial_capital" ∈ Backtest.rotationResultKeys ∧
      "final_value" ∈ Backtest.rotationResultKeys ∧
      "total_return" ∈ Backtest.rotationResultKeys ∧
      "annual_return" ∈ Backtest.rotationResultKeys ∧
      "trades" ∈ Backtest.rotationResultKeys ∧
      "portfolio_value" ∈ Backtest.rotationResultKeys ∧
      "max_drawdown" ∉ Backtest.rotationResultKeys) ∧
    ("initial_capital" ∈ Backtest.volumeResultKeys ∧
      "final_value" ∈ Backtest.volumeResultKeys ∧
      "total_return" ∈ Backtest.volumeResultKeys ∧
      "annual_return" ∈ Backtest.volumeResultKeys ∧
      "trades" ∈ Backtest.volumeResultKeys ∧
      "portfolio_value" ∈ Backtest.volumeResultKeys ∧
      "max_drawdown" ∈ Backtest.volumeResultKeys) := by decide

/-! ## C10 — buy precedence in the single-instrument row loop -/

/-- C10: on a row where both signals are true, the buy branch takes
precedence: a flat state with positive cash executes exactly the BUY (and
no SELL), a long state executes exactly the SELL, and in every case at
most one trade is appended per row. -/
theorem single_buy_precedence :
    (∀ (symbol : TSym) (st : Backtest.VolState) (row : Backtest.VolRow),
        row.buy = true → row.sell = true → st.holding = false → 0 < st.cash →
        (Backtest.volStep symbol st row).trades =
          st.trades ++
            [⟨row.date, symbol, "BUY", st.cash / row.adjClose, row.adjClose,
              st.cash / row.adjClose * row.adjClose⟩] ∧
          (Backtest.volStep symbol st row).holding = true) ∧
    (∀ (symbol : TSym) (st : Backtest.VolState) (row : Backtest.VolRow),
        row.buy = true → row.sell = true → st.holding = true →
        (Backtest.volStep symbol st row).trades =
          st.trades ++
            [⟨row.date, symbol, "SELL", st.shares, row.adjClose,
              st.shares * row.adjClose⟩] ∧
          (Backtest.volStep symbol st row).holding = false) ∧
    (∀ (symbol : TSym) (st : Backtest.VolState) (row : Backtest.VolRow),
        (Backtest.volStep symbol st row).trades.length ≤ st.trades.length + 1) := by
  refine ⟨?_, ?_, ?_⟩
  · intro symbol st row hb hs hflat hcash
    simp [Backtest.volStep, hb, hs, hflat, hcash]
  · intro symbol st row hb hs hlong
    simp [Backtest.volStep, hb, hs, hlong]
  · intro symbol st row
    by_cases h1 : (row.buy && !st.holding && decide (0 < st.cash)) = true
    · simp [Backtest.volStep, h1]
    · by_cases h2 : (row.sell && st.holding) = true
      · simp [Backtest.volStep, h1, h2]
      · simp [Backtest.volStep, h1, h2]

/-- C10 witness: a concrete both-signals row executed from a flat state
with positive cash records exactly one BUY. -/
theorem single_buy_precedence_witness :
    (Backtest.volStep "SPY"
        { holding := false, cash := 100, shares := 0, values := [], trades := [] }
        { date := 3, buy := true, sell := true, adjClose := 4 }).trades =
      [⟨3, "SPY", "BUY", 100 / 4, 4, 100 / 4 * 4⟩] ∧
    (Backtest.volStep "SPY"
        { holding := false, cash := 100, shares := 0, values := [], trades := [] }
        { date := 3, buy := true, sell := true, adjClose := 4 }).holding = true := by
  have h := single_buy_precedence.1 "SPY"
    { holding := false, cash := 100, shares := 0, values := [], trades := [] }
    { date := 3, buy := true, sell := true, adjClose := 4 }
    rfl rfl rfl (by norm_num)
  simpa using h

/-! ## C1 — portfolio value conservation -/

theorem markToMarket_cash (db : TSym → List (ℤ × Signals.Bar)) (d : ℤ)
    (pos : List (TSym × ℚ)) : ∀ c : ℚ,
    Backtest.markToMarket db d c pos = c + Backtest.markToMarket db d 0 pos := by
  induction pos with
  | nil => intro c; simp [Backtest.markToMarket]
  | cons p ps ih =>
    intro c
    simp only [Backtest.markToMarket, List.foldl_cons]
    rcases h : Backtest.adjCloseAt (db p.1) d with _ | q
    · simp only [h]
      exact ih c
    · simp only [h]
      show Backtest.markToMarket db d (c + p.2 * q) ps =
        c + Backtest.markToMarket db d (0 + p.2 * q) ps
      rw [ih (c + p.2 * q), ih (0 + p.2 * q)]
      ring

theorem markToMarket_append (db : TSym → List (ℤ × Signals.Bar)) (d : ℤ)
    (c : ℚ) (pos : List (TSym × ℚ)) (s : TSym) (x : ℚ) :
    Backtest.markToMarket db d c (pos ++ [(s, x)]) =
      Backtest.markToMarket db d c pos +
        (match Backtest.adjCloseAt (db s) d with
          | some q => x * q
          | none => 0) := by
  rcases h : Backtest.adjCloseAt (db s) d with _ | q <;>
    simp [Backtest.markToMarket, List.foldl_append, h]

theorem liquidateAll_priced (db : TSym → List (ℤ × Signals.Bar)) (d : ℤ)
    (pos : List (TSym × ℚ)) : ∀ c : ℚ,
    (∀ p ∈ pos, (Backtest.adjCloseAt (db p.1) d).isSome) →
    (Backtest.liquidateAll db d c pos).1 = Backtest.markToMarket db d c pos ∧
      (Backtest.liquidateAll db d c pos).2.1 = [] := by
  induction pos with
  | nil => intro c _; simp [Backtest.liquidateAll, Backtest.markToMarket]
  | cons p ps ih =>
    intro c hall
    have hp := hall p (List.mem_cons_self p ps)
    rcases hq : Backtest.adjCloseAt (db p.1) d with _ | q
    · rw [hq] at hp; simp at hp
    · have hps : ∀ p ∈ ps, (Backtest.adjCloseAt (db p.1) d).isSome :=
        fun x hx => hall x (List.mem_cons_of_mem p hx)
      have := ih (c + p.2 * q) hps
      simp only [Backtest.liquidateAll, hq]
      rcases hrec : Backtest.liquidateAll db d (c + p.2 * q) ps with ⟨c1, kept, ts⟩
      rw [hrec] at this
      refine ⟨?_, by simpa using this.2⟩
      have hmm : Backtest.markToMarket db d c (p :: ps) =
          Backtest.markToMarket db d (c + p.2 * q) ps := by
        simp only [Backtest.markToMarket, List.foldl_cons, hq]
      rw [hmm]
      simpa using this.1

theorem buyAll_conserve (db : TSym → List (ℤ × Signals.Bar)) (d : ℤ)
    (alloc : ℚ) (cands : List TSym) : ∀ (c : ℚ) (pos : List (TSym × ℚ))
    (ts : List Backtest.Trade),
    cands.Nodup →
    (∀ s ∈ cands, ∃ q, Backtest.adjCloseAt (db s) d = some q ∧ q ≠ 0) →
    (∀ s ∈ cands, pos.any (fun p => p.1 = s) = false) →
    Backtest.markToMarket db d (Backtest.buyAll db d alloc cands c pos ts).1
        (Backtest.buyAll db d alloc cands c pos ts).2.1 =
      Backtest.markToMarket db d c pos := by
  induction cands with
  | nil => intro c pos ts _ _ _; simp [Backtest.buyAll]
  | cons s rest ih =>
    intro c pos ts hnodup hpriced hfresh
    obtain ⟨q, hq, hq0⟩ := hpriced s (List.mem_cons_self s rest)
    have hset : Backtest.dictSet pos s (alloc / q) = pos ++ [(s, alloc / q)] := by
      rw [Backtest.dictSet, hfresh s (List.mem_cons_self s rest)]
      simp
    simp only [Backtest.buyAll, hq]
    rw [ih (c - alloc) (Backtest.dictSet pos s (alloc / q)) _
        (List.nodup_cons.mp hnodup).2
        (fun x hx => hpriced x (List.mem_cons_of_mem s hx))
        ?_]
    · rw [hset, markToMarket_append, hq]
      rw [markToMarket_cash db d pos (c - alloc), markToMarket_cash db d pos c]
      dsimp only
      rw [div_mul_cancel₀ alloc hq0]
      ring
    · intro x hx
      rw [hset]
      have hxs : x ≠ s := by
        intro hxe
        exact (List.nodup_cons.mp hnodup).1 (hxe ▸ hx)
      have := hfresh x (List.mem_cons_of_mem s hx)
      simp [this, hxs]
      intro he
      exact absurd he.symm hxs

/-- C1: every trading step conserves mark-to-market portfolio value at the
day's prices.  First conjunct: the rotation rebalance (liquidate priced
positions, split cash over distinct priced candidates) leaves
`cash + Σ shares·price` unchanged.  Second conjunct: every row of the
single-instrument loop (BUY with all cash, SELL of the whole position, or
no trade) leaves `cash + shares·price` unchanged. -/
theorem portfolio_value_conservation :
    (∀ (db : TSym → List (ℤ × Signals.Bar)) (d : ℤ) (cands : List TSym)
        (cash : ℚ) (positions : List (TSym × ℚ)) (trades : List Backtest.Trade),
        (∀ p ∈ positions, (Backtest.adjCloseAt (db p.1) d).isSome) →
        cands.Nodup →
        (∀ s ∈ cands, ∃ q, Backtest.adjCloseAt (db s) d = some q ∧ q ≠ 0) →
        Backtest.markToMarket db d
            (Backtest.rebalanceExec db d cands cash positions trades).1
            (Backtest.rebalanceExec db d cands cash positions trades).2.1 =
          Backtest.markToMarket db d cash positions) ∧
    (∀ (symbol : TSym) (st : Backtest.VolState) (row : Backtest.VolRow),
        row.adjClose ≠ 0 →
        Backtest.volValue (Backtest.volStep symbol st row) row.adjClose =
          Backtest.volValue st row.adjClose) := by
  constructor
  · intro db d cands cash positions trades hpos hnodup hcands
    obtain ⟨h1, h2⟩ := liquidateAll_priced db d positions cash hpos
    simp only [Backtest.rebalanceExec]
    rcases hliq : Backtest.liquidateAll db d cash positions with ⟨cash1, kept, sells⟩
    rw [hliq] at h1 h2
    simp only at h1 h2
    subst h2
    by_cases hc : cands.isEmpty
    · simp [hc, Backtest.markToMarket, h1]
    · have hc' : cands.isEmpty = false := by simpa using hc
      simp only [hc', Bool.false_eq_true, if_false]
      rw [buyAll_conserve db d (cash1 / cands.length) cands cash1 [] _
        hnodup hcands (by intro s _; simp)]
      simp [Backtest.markToMarket, h1]
  · intro symbol st row hprice
    by_cases h1 : (row.buy && !st.holding && decide (0 < st.cash)) = true
    · have h1' := h1
      simp only [Bool.and_eq_true, Bool.not_eq_true', decide_eq_true_eq] at h1'
      obtain ⟨⟨hb, hflat⟩, hcash⟩ := h1'
      simp [Backtest.volStep, h1, Backtest.volValue, hb, hflat, hcash,
        div_mul_cancel₀ st.cash hprice]
    · by_cases h2 : (row.sell && st.holding) = true
      · have h2' := h2
        simp only [Bool.and_eq_true] at h2'
        obtain ⟨hsell, hlong⟩ := h2'
        simp [Backtest.volStep, h1, hsell, hlong, Backtest.volValue]
      · simp [Backtest.volStep, h1, h2, Backtest.volValue]

/-- C1 witness: conservation evaluated on a concrete rebalance (one held
position liquidated at price 5, two candidates bought at prices 2 and 4)
and on a concrete single-instrument BUY row. -/
theorem portfolio_value_conservation_witness :
    (Backtest.markToMarket (fun s => if s = "X" then [(7, ⟨5, 5, 1⟩)] else
          if s = "Y" then [(7, ⟨2, 2, 1⟩)] else [(7, ⟨4, 4, 1⟩)]) 7
        (Backtest.rebalanceExec (fun s => if s = "X" then [(7, ⟨5, 5, 1⟩)] else
          if s = "Y" then [(7, ⟨2, 2, 1⟩)] else [(7, ⟨4, 4, 1⟩)]) 7
          ["Y", "Z"] 100 [("X", 3)] []).1
        (Backtest.rebalanceExec (fun s => if s = "X" then [(7, ⟨5, 5, 1⟩)] else
          if s = "Y" then [(7, ⟨2, 2, 1⟩)] else [(7, ⟨4, 4, 1⟩)]) 7
          ["Y", "Z"] 100 [("X", 3)] []).2.1 =
      Backtest.markToMarket (fun s => if s = "X" then [(7, ⟨5, 5, 1⟩)] else
          if s = "Y" then [(7, ⟨2, 2, 1⟩)] else [(7, ⟨4, 4, 1⟩)]) 7
        100 [("X", 3)]) ∧
    Backtest.volValue (Backtest.volStep "SPY"
        { holding := false, cash := 100, shares := 0, values := [], trades := [] }
        { date := 3, buy := true, sell := false, adjClose := 4 }) 4 =
      Backtest.volValue
        { holding := false, cash := 100, shares := 0, values := [], trades := [] } 4 := by
  constructor
  · exact portfolio_value_conservation.1 _ 7 ["Y", "Z"] 100 [("X", 3)] []
      (by intro p hp; simp at hp; subst hp; decide)
      (by decide)
      (by
        intro s hs
        simp at hs
        rcases hs with h | h <;> subst h
        · exact ⟨2, by decide, by norm_num⟩
        · exact ⟨4, by decide, by norm_num⟩)
  · exact portfolio_value_conservation.2 "SPY" _ _ (by norm_num)

/-! ## C6 — flat series give relative strength 1 everywhere -/

theorem innerJoin_const (datesB datesE : List ℤ) (b e : ℚ) :
    ∀ row ∈ RS.innerJoin (constSeries datesB b) (constSeries datesE e),
      row.2.1 = b ∧ row.2.2 = e := by
  intro row hrow
  rw [RS.innerJoin] at hrow
  obtain ⟨p, hp, hmap⟩ := List.mem_filterMap.mp hrow
  obtain ⟨q, hq, hqe⟩ := Option.map_eq_some'.mp hmap
  have hpb : p.2 = b := by
    obtain ⟨dd, _, hdd⟩ := List.mem_map.mp hp
    rw [← hdd]
  have hqe2 : q.2 = e := by
    have hqmem := List.mem_of_find?_eq_some hq
    obtain ⟨dd, _, hdd⟩ := List.mem_map.mp hqmem
    rw [← hdd]
  rw [← hqe]
  exact ⟨hpb, hqe2⟩

theorem rsTail_const (b e : ℚ) :
    ∀ rows : List (ℤ × ℚ × ℚ),
      (∀ r ∈ rows, r.2.1 = b ∧ r.2.2 = e) →
      ∀ p ∈ RS.rsTail b e 1 1 rows, p.2 = 1 := by
  intro rows
  induction rows with
  | nil => intro _ p hp; simp [RS.rsTail] at hp
  | cons r rest ih =>
    intro hall p hp
    obtain ⟨hb, he⟩ := hall r (List.mem_cons_self r rest)
    rcases r with ⟨d, rb, re⟩
    simp only at hb he
    subst hb; subst he
    rw [RS.rsTail] at hp
    simp only [sub_self, zero_div, add_zero, mul_one] at hp
    rcases List.mem_cons.mp hp with hhd | htl
    · rw [hhd]
      norm_num
    · exact ih (fun x hx => hall x (List.mem_cons_of_mem _ hx)) p htl

/-- C6: when instrument and benchmark are both flat (constant, nonzero
prices) over the joined range, every relative-strength value produced by
`calculate_relative_strength`'s per-pair computation equals 1 (all daily
returns are 0, both cumulative-return indices stay 1, and the ratio is 1). -/
theorem flat_series_relative_strength_one (datesB datesE : List ℤ) (b e : ℚ)
    (hb : b ≠ 0) (he : e ≠ 0) :
    ∀ p ∈ RS.rsSeries (constSeries datesB b) (constSeries datesE e), p.2 = 1 := by
  intro p hp
  rw [RS.rsSeries] at hp
  rcases hj : RS.innerJoin (constSeries datesB b) (constSeries datesE e) with
    _ | ⟨⟨d0, b0, e0⟩, rest⟩
  · rw [hj] at hp; simp at hp
  · rw [hj] at hp
    dsimp only at hp
    obtain ⟨hb0, he0⟩ := innerJoin_const datesB datesE b e (d0, b0, e0)
      (by rw [hj]; exact List.mem_cons_self _ _)
    dsimp only at hb0 he0
    rw [hb0, he0] at hp
    refine rsTail_const b e rest ?_ p hp
    intro x hx
    exact innerJoin_const datesB datesE b e x
      (by rw [hj]; exact List.mem_cons_of_mem _ hx)

unseal Rat.add Rat.mul Rat.inv Rat.sub in
/-- C6 witness: on concrete two-day flat series at prices 2 and 3, the
single output row is `(1, 1)` and the theorem evaluates its value to 1. -/
theorem flat_series_relative_strength_one_witness :
    (((1 : ℤ), (1 : ℚ)) ∈ RS.rsSeries (constSeries [0, 1] 2) (constSeries [0, 1] 3)) ∧
      ((1 : ℤ), (1 : ℚ)).2 = 1 :=
  ⟨by decide,
    flat_series_relative_strength_one [0, 1] [0, 1] 2 3 (by norm_num) (by norm_num)
      ((1 : ℤ), (1 : ℚ)) (by decide)⟩

/-! ## C7 — buy-signal rule with undefined operands forced false -/

/-- C7: with the default parameters (window 20, threshold 1.5, trend days
5), the buy signal is true exactly when the fraction of the last 5 rows
with price strictly above the (defined) moving average is at least 0.8,
the relative volume is defined and exceeds 1.5, and the OBV exceeds its
value five rows earlier; and on any row where an operand is undefined —
within the first 4 rows for the trend window, the first 19 rows for the
relative volume, or the first 5 rows for the OBV shift — the signal is
false, never undefined or true. -/
theorem buy_signal_rule (bars : List Signals.Bar) (t : ℕ) :
    (Signals.buySignal bars 20 (3 / 2) 5 t = true ↔
      (4 / 5 : ℚ) ≤ (Signals.countAbove bars 20 5 t : ℚ) / 5 ∧
      (∃ r, Signals.relativeVolume bars 20 t = some r ∧ (3 / 2 : ℚ) < r) ∧
      (5 ≤ t ∧ Signals.obvAt bars (t - 5) < Signals.obvAt bars t)) ∧
    ((t + 1 < 5 ∨ t + 1 < 20 ∨ t < 5) →
      Signals.buySignal bars 20 (3 / 2) 5 t = false) := by
  constructor
  · by_cases h20 : t + 1 < 20
    · have hrv : Signals.relativeVolume bars 20 t = none := by
        simp [Signals.relativeVolume, Signals.volumeMA, Signals.rollingMean, h20]
      have hcnt : Signals.countAbove bars 20 5 t = 0 := by
        rw [Signals.countAbove, List.countP_eq_zero]
        intro i hi
        obtain ⟨k, hk, hik⟩ := List.mem_map.mp hi
        have hit : i < 19 := by
          have := List.mem_range.mp hk
          omega
        rw [Signals.aboveMA, Signals.priceMA, Signals.rollingMean, if_pos (by omega)]
        simp
      have hbuyf : Signals.buySignal bars 20 (3 / 2) 5 t = false := by
        simp [Signals.buySignal, Signals.highVolume, hrv]
      rw [hbuyf, hcnt]
      simp only [Bool.false_eq_true, false_iff, Nat.cast_zero, zero_div]
      rintro ⟨hfrac, _, _⟩
      norm_num at hfrac
    · have ht4 : ¬ (t + 1 < 5) := by omega
      have ht5 : ¬ (t < 5) := by omega
      have h5le : 5 ≤ t := by omega
      simp only [Signals.buySignal, Signals.uptrend, Signals.highVolume,
        Signals.relativeVolume, Signals.volumeMA, Signals.rollingMean,
        Signals.obvIncreasing, ht4, ht5, h20, if_false, Option.map_some',
        Bool.and_eq_true, decide_eq_true_eq]
      constructor
      · rintro ⟨⟨hcnt, hv⟩, hobv⟩
        exact ⟨by linarith, ⟨_, rfl, hv⟩, h5le, hobv⟩
      · rintro ⟨hfrac, ⟨r, hrr, hv⟩, _, hobv⟩
        have hr2 := Option.some.inj hrr
        subst hr2
        exact ⟨⟨by linarith, hv⟩, hobv⟩
  · intro hcase
    have h20 : t + 1 < 20 := by omega
    have hrv : Signals.relativeVolume bars 20 t = none := by
      simp [Signals.relativeVolume, Signals.volumeMA, Signals.rollingMean, h20]
    simp [Signals.buySignal, Signals.highVolume, hrv]

/-- C7 witness: on the empty frame row 0 all operands are undefined and the
buy signal evaluates to false. -/
theorem buy_signal_rule_witness :
    Signals.buySignal [] 20 (3 / 2) 5 0 = false :=
  (buy_signal_rule [] 0).2 (Or.inl (by omega))

/-! ## C2 — annualized return formula is unguarded -/

unseal Rat.add Rat.mul Rat.inv Rat.sub in
/-- C2 counterexample: running the single-instrument backtest over a
one-bar frame with `end_date = start_date` first records a portfolio value
sample — the simulation runs — and the analysis phase then fails with the
`ZeroDivisionError` of `365 / days`; no `InvalidDateRange` error exists or
is raised before the simulation. -/
theorem annualized_return_no_guard_cex :
    (Backtest.simulateVol "SPY" [(5, ⟨10, 10, 1⟩)]).values = [(5, 10000)] ∧
    Backtest.analyzeVol (Backtest.simulateVol "SPY" [(5, ⟨10, 10, 1⟩)]) 5 5 =
      .error .zeroDivisionError := by
  constructor
  · decide
  · have h1 : (((Backtest.simulateVol "SPY" [(5, ⟨10, 10, 1⟩)]).values.map
        Prod.snd).getLast?) = some 10000 := by decide
    simp only [Backtest.analyzeVol, h1]
    norm_num

/-- C2 (amended): in both backtest variants the annualized return is
`((final_value / initial_capital) ^ (365 / days) - 1) * 100` with
`days = end_date - start_date` in calendar days, but the case `days = 0`
is NOT guarded: no `InvalidDateRange` is raised before the simulation;
instead the analysis phase, which runs after the simulation loop, raises
`ZeroDivisionError` when the dates coincide. -/
theorem annualized_return_unguarded :
    (∀ (st : Backtest.VolState) (startD endD : ℤ) (fv : ℚ),
        (st.values.map Prod.snd).getLast? = some fv →
        endD - startD ≠ 0 →
        (Backtest.analyzeVol st startD endD).map (fun r => r.annualReturn) =
          .ok (Backtest.annualReturnPct fv Backtest.initialCapital (endD - startD))) ∧
    (∀ (st : Backtest.VolState) (startD endD : ℤ) (fv : ℚ),
        (st.values.map Prod.snd).getLast? = some fv →
        endD - startD = 0 →
        Backtest.analyzeVol st startD endD = .error .zeroDivisionError) ∧
    (∀ (st : Backtest.RotState) (startD endD : ℤ) (fv : ℚ),
        (st.values.map Prod.snd).getLast? = some fv →
        endD - startD ≠ 0 →
        (Backtest.analyzeRot st startD endD).map (fun r => r.annualReturn) =
          .ok (Backtest.annualReturnPct fv Backtest.initialCapital (endD - startD))) ∧
    (∀ (st : Backtest.RotState) (startD endD : ℤ) (fv : ℚ),
        (st.values.map Prod.snd).getLast? = some fv →
        endD - startD = 0 →
        Backtest.analyzeRot st startD endD = .error .zeroDivisionError) := by
  refine ⟨?_, ?_, ?_, ?_⟩
  · intro st startD endD fv hlast hdays
    simp only [Backtest.analyzeVol, hlast, hdays, if_false]
    rfl
  · intro st startD endD fv hlast hdays
    simp only [Backtest.analyzeVol, hlast, hdays, if_true]
  · intro st startD endD fv hlast hdays
    simp only [Backtest.analyzeRot, hlast, hdays, if_false]
    rfl
  · intro st startD endD fv hlast hdays
    simp only [Backtest.analyzeRot, hlast, hdays, if_true]

/-- C2 witness: the formula branch and the zero-day branch evaluated on a
concrete one-sample state for each variant. -/
theorem annualized_return_unguarded_witness :
    ((Backtest.analyzeVol
          { holding := false, cash := 10000, shares := 0,
            values := [(0, 10000)], trades := [] } 0 1).map
        (fun r => r.annualReturn) =
      .ok (Backtest.annualReturnPct 10000 Backtest.initialCapital 1)) ∧
    (Backtest.analyzeVol
        { holding := false, cash := 10000, shares := 0,
          values := [(0, 10000)], trades := [] } 0 0 =
      .error .zeroDivisionError) ∧
    ((Backtest.analyzeRot
          { cash := 10000, positions := [], values := [(0, 10000)],
            trades := [], lastRebalance := none } 0 1).map
        (fun r => r.annualReturn) =
      .ok (Backtest.annualReturnPct 10000 Backtest.initialCapital 1)) ∧
    (Backtest.analyzeRot
        { cash := 10000, positions := [], values := [(0, 10000)],
          trades := [], lastRebalance := none } 0 0 =
      .error .zeroDivisionError) :=
  ⟨annualized_return_unguarded.1 _ 0 1 10000 rfl (by norm_num),
    annualized_return_unguarded.2.1 _ 0 0 10000 rfl (by norm_num),
    annualized_return_unguarded.2.2.1 _ 0 1 10000 rfl (by norm_num),
    annualized_return_unguarded.2.2.2 _ 0 0 10000 rfl (by norm_num)⟩

/-! ## C9 — normalization method names and dispatch -/

/-- C9 counterexample: the interface's accepted strings are the code's
`z_score` / `min_max` / `percent_rank`; the claim's name `zscore` is
rejected with the fatal unknown-method error, while `z_score` (outside the
claim's set) succeeds. -/
theorem normalize_spec_names_rejected_cex :
    RS.normalizeRelativeStrength [("XLK", [(0, 1)])] "zscore" =
      .error "Unknown normalization method: zscore" ∧
    RS.normalizeRelativeStrength [("XLK", [(0, 1)])] "z_score" =
      .ok (RS.zscoreTable [("XLK", [(0, 1)])]) := by
  constructor
  · rfl
  · rfl

/-- C9 (amended): `normalize_relative_strength` succeeds exactly on the
method strings `z_score`, `min_max` and `percent_rank`, applying the
z-score, min-max and percentile-rank formulas column by column, and raises
the fatal unknown-method `ValueError` on every other string. -/
theorem normalize_method_dispatch :
    (∀ tbl : RS.RSTable,
        RS.normalizeRelativeStrength tbl "z_score" = .ok (RS.zscoreTable tbl)) ∧
    (∀ tbl : RS.RSTable,
        RS.normalizeRelativeStrength tbl "min_max" = .ok (RS.minmaxTable tbl)) ∧
    (∀ tbl : RS.RSTable,
        RS.normalizeRelativeStrength tbl "percent_rank" =
          .ok (RS.percentRankTable tbl)) ∧
    (∀ (tbl : RS.RSTable) (m : String),
        m ≠ "z_score" → m ≠ "min_max" → m ≠ "percent_rank" →
        RS.normalizeRelativeStrength tbl m =
          .error ("Unknown normalization method: " ++ m)) ∧
    (∀ (tbl : RS.RSTable) (s : TSym) (ser : List (ℤ × ℚ)), (s, ser) ∈ tbl →
        (s, ser.map (fun p =>
            (p.1, ((p.2 : ℝ) - (meanQ (RS.colVals ser) : ℝ)) /
              RS.sampleStd (RS.colVals ser)))) ∈ RS.zscoreTable tbl) ∧
    (∀ (tbl : RS.RSTable) (s : TSym) (ser : List (ℤ × ℚ)), (s, ser) ∈ tbl →
        (s, ser.map (fun p =>
            (p.1, (((p.2 - RS.colMin (RS.colVals ser)) /
              (RS.colMax (RS.colVals ser) - RS.colMin (RS.colVals ser)) : ℚ) : ℝ)))) ∈
          RS.minmaxTable tbl) ∧
    (∀ (tbl : RS.RSTable) (s : TSym) (ser : List (ℤ × ℚ)), (s, ser) ∈ tbl →
        (s, ser.map (fun p => (p.1, ((RS.pctRank (RS.colVals ser) p.2 : ℚ) : ℝ)))) ∈
          RS.percentRankTable tbl) := by
  refine ⟨fun tbl => rfl, fun tbl => rfl, fun tbl => rfl, ?_, ?_, ?_, ?_⟩
  · intro tbl m h1 h2 h3
    simp only [RS.normalizeRelativeStrength, h1, h2, h3, if_false]
  · intro tbl s ser hmem
    exact List.mem_map_of_mem _ hmem
  · intro tbl s ser hmem
    exact List.mem_map_of_mem _ hmem
  · intro tbl s ser hmem
    exact List.mem_map_of_mem _ hmem

/-- C9 witness: the unknown-method branch applied to the concrete method
string `minmax` (another of the claim's names) on the empty table. -/
theorem normalize_method_dispatch_witness :
    RS.normalizeRelativeStrength [] "minmax" =
      .error "Unknown normalization method: minmax" :=
  normalize_method_dispatch.2.2.2.1 [] "minmax" (by decide) (by decide) (by decide)

/-! ## C3 — the rebalance cadence is gated by the relative-strength index -/

theorem liquidateAll_cons_priced (db : TSym → List (ℤ × Signals.Bar)) (d : ℤ)
    (c : ℚ) (x : TSym × ℚ) (xs : List (TSym × ℚ)) (xq : ℚ)
    (h : Backtest.adjCloseAt (db x.1) d = some xq) :
    Backtest.liquidateAll db d c (x :: xs) =
      ((Backtest.liquidateAll db d (c + x.2 * xq) xs).1,
        (Backtest.liquidateAll db d (c + x.2 * xq) xs).2.1,
        ⟨d, x.1, "SELL", x.2, xq, x.2 * xq⟩ ::
          (Backtest.liquidateAll db d (c + x.2 * xq) xs).2.2) := by
  simp only [Backtest.liquidateAll, h]

theorem liquidateAll_cons_unpriced (db : TSym → List (ℤ × Signals.Bar)) (d : ℤ)
    (c : ℚ) (x : TSym × ℚ) (xs : List (TSym × ℚ))
    (h : Backtest.adjCloseAt (db x.1) d = none) :
    Backtest.liquidateAll db d c (x :: xs) =
      ((Backtest.liquidateAll db d c xs).1,
        x :: (Backtest.liquidateAll db d c xs).2.1,
        (Backtest.liquidateAll db d c xs).2.2) := by
  simp only [Backtest.liquidateAll, h]

theorem rebalanceExec_eq (db : TSym → List (ℤ × Signals.Bar)) (d : ℤ)
    (cands : List TSym) (cash : ℚ) (positions : List (TSym × ℚ))
    (trades : List Backtest.Trade) :
    Backtest.rebalanceExec db d cands cash positions trades =
      (if cands.isEmpty then
        ((Backtest.liquidateAll db d cash positions).1,
          (Backtest.liquidateAll db d cash positions).2.1,
          trades ++ (Backtest.liquidateAll db d cash positions).2.2)
      else
        Backtest.buyAll db d
          ((Backtest.liquidateAll db d cash positions).1 / cands.length) cands
          (Backtest.liquidateAll db d cash positions).1
          (Backtest.liquidateAll db d cash positions).2.1
          (trades ++ (Backtest.liquidateAll db d cash positions).2.2)) := by
  rw [Backtest.rebalanceExec]

theorem liquidateAll_sell_mem (db : TSym → List (ℤ × Signals.Bar)) (d : ℤ)
    (pos : List (TSym × ℚ)) : ∀ (c : ℚ) (p : TSym × ℚ) (q : ℚ),
    p ∈ pos → Backtest.adjCloseAt (db p.1) d = some q →
    (⟨d, p.1, "SELL", p.2, q, p.2 * q⟩ : Backtest.Trade) ∈
      (Backtest.liquidateAll db d c pos).2.2 := by
  induction pos with
  | nil => intro c p q hp _; simp at hp
  | cons x xs ih =>
    intro c p q hp hq
    rcases List.mem_cons.mp hp with hhd | htl
    · subst hhd
      rw [liquidateAll_cons_priced db d c p xs q hq]
      exact List.mem_cons_self _ _
    · rcases hx : Backtest.adjCloseAt (db x.1) d with _ | xq
      · rw [liquidateAll_cons_unpriced db d c x xs hx]
        exact ih c p q htl hq
      · rw [liquidateAll_cons_priced db d c x xs xq hx]
        exact List.mem_cons_of_mem _ (ih (c + x.2 * xq) p q htl hq)

theorem buyAll_trades_mono (db : TSym → List (ℤ × Signals.Bar)) (d : ℤ)
    (alloc : ℚ) (cands : List TSym) : ∀ (c : ℚ) (pos : List (TSym × ℚ))
    (ts : List Backtest.Trade) (x : Backtest.Trade),
    x ∈ ts → x ∈ (Backtest.buyAll db d alloc cands c pos ts).2.2 := by
  induction cands with
  | nil => intro c pos ts x hx; exact hx
  | cons s rest ih =>
    intro c pos ts x hx
    rcases hs : Backtest.adjCloseAt (db s) d with _ | q
    · rw [show Backtest.buyAll db d alloc (s :: rest) c pos ts =
          Backtest.buyAll db d alloc rest c pos ts by
        simp only [Backtest.buyAll, hs]]
      exact ih c pos ts x hx
    · rw [show Backtest.buyAll db d alloc (s :: rest) c pos ts =
          Backtest.buyAll db d alloc rest (c - alloc)
            (Backtest.dictSet pos s (alloc / q))
            (ts ++ [⟨d, s, "BUY", alloc / q, q, alloc⟩]) by
        simp only [Backtest.buyAll, hs]]
      exact ih (c - alloc) _ _ x (List.mem_append_left _ hx)

theorem rebalanceExec_sell_mem (db : TSym → List (ℤ × Signals.Bar)) (d : ℤ)
    (cands : List TSym) (cash : ℚ) (positions : List (TSym × ℚ))
    (trades : List Backtest.Trade) (p : TSym × ℚ) (q : ℚ)
    (hp : p ∈ positions) (hq : Backtest.adjCloseAt (db p.1) d = some q) :
    (⟨d, p.1, "SELL", p.2, q, p.2 * q⟩ : Backtest.Trade) ∈
      (Backtest.rebalanceExec db d cands cash positions trades).2.2 := by
  have hsell := liquidateAll_sell_mem db d positions cash p q hp hq
  rw [rebalanceExec_eq]
  by_cases hc : cands.isEmpty
  · simp only [hc, if_true]
    exact List.mem_append_right _ hsell
  · simp only [hc, Bool.false_eq_true, if_false]
    exact buyAll_trades_mono db d _ cands _ _ _ _ (List.mem_append_right _ hsell)

/-- C3 (amended): on a processed day meeting the cadence condition, the
rebalance runs ONLY when the day additionally appears in the
relative-strength index: in that case the day is recorded as the last
rebalance and every held position with a price that day gets its SELL
trade; when the day is processed and the cadence holds but the day is
missing from the relative-strength index (for example because the
benchmark has no bar that day, which the tradability gate does not check),
no rebalance happens at all — positions, trades and the last-rebalance
marker are untouched. -/
theorem rebalance_gate_requires_rs_index
    (db : TSym → List (ℤ × Signals.Bar)) (etfSymbols : List TSym)
    (rsData : RS.RSTable) (freq : ℤ) (topN : ℕ) (threshold : ℚ)
    (st : Backtest.RotState) (d : ℤ)
    (htrad : Backtest.tradable db etfSymbols d = true)
    (hdue : Backtest.rebalanceDue st.lastRebalance d freq = true) :
    ((RS.unionDates rsData).contains d = true →
      (Backtest.rotStep db etfSymbols rsData freq topN threshold st d).lastRebalance =
        some d ∧
      (∀ p ∈ st.positions, ∀ q : ℚ, Backtest.adjCloseAt (db p.1) d = some q →
        (⟨d, p.1, "SELL", p.2, q, p.2 * q⟩ : Backtest.Trade) ∈
          (Backtest.rotStep db etfSymbols rsData freq topN threshold st d).trades)) ∧
    ((RS.unionDates rsData).contains d = false →
      (Backtest.rotStep db etfSymbols rsData freq topN threshold st d).positions =
        st.positions ∧
      (Backtest.rotStep db etfSymbols rsData freq topN threshold st d).trades =
        st.trades ∧
      (Backtest.rotStep db etfSymbols rsData freq topN threshold st d).lastRebalance =
        st.lastRebalance) := by
  constructor
  · intro hmem
    simp only [Backtest.rotStep, htrad, hdue, hmem, if_true]
    rw [rebalanceExec_eq]
    by_cases hc : (List.filter
        (fun s => Backtest.hasDate (db s) d &&
          Backtest.hasRecentBuy (Backtest.barsUpTo (db s) d) threshold)
        (RS.sectorRotationList
          (RS.zscoreTable (rsData.map (fun c =>
            (c.1, c.2.filter (fun p => decide (p.1 ≤ d)))))) topN 20)).isEmpty
    · simp only [hc, if_true]
      refine ⟨by trivial, ?_⟩
      intro p hp q hq
      exact List.mem_append_right _
        (liquidateAll_sell_mem db d st.positions st.cash p q hp hq)
    · simp only [hc, Bool.false_eq_true, if_false]
      refine ⟨by trivial, ?_⟩
      intro p hp q hq
      exact buyAll_trades_mono db d _ _ _ _ _ _
        (List.mem_append_right _
          (liquidateAll_sell_mem db d st.positions st.cash p q hp hq))
  · intro hmem
    simp only [Backtest.rotStep, htrad, hdue, hmem, if_true, Bool.false_eq_true,
      if_false]
    exact ⟨by trivial, by trivial, by trivial⟩

/-- C3 witness: the two branches of the gate on concrete one-symbol data —
a day present in the relative-strength index rebalances and records the
day as last rebalance, a day absent from it leaves positions, trades and
the marker untouched even though the day is processed and the cadence
holds. -/
theorem rebalance_gate_requires_rs_index_witness :
    ((Backtest.rotStep (fun _ => [(0, ⟨2, 2, 1⟩)]) ["A"] [("A", [(0, 1)])] 1 3 (3 / 2)
        { cash := 0, positions := [("A", 5)], values := [], trades := [],
          lastRebalance := none } 0).lastRebalance = some 0 ∧
      (∀ p ∈ [(("A" : TSym), (5 : ℚ))], ∀ q : ℚ,
        Backtest.adjCloseAt ((fun (_ : TSym) => [((0 : ℤ), (⟨2, 2, 1⟩ : Signals.Bar))]) p.1) 0 =
          some q →
        (⟨0, p.1, "SELL", p.2, q, p.2 * q⟩ : Backtest.Trade) ∈
          (Backtest.rotStep (fun _ => [(0, ⟨2, 2, 1⟩)]) ["A"] [("A", [(0, 1)])] 1 3 (3 / 2)
            { cash := 0, positions := [("A", 5)], values := [], trades := [],
              lastRebalance := none } 0).trades)) ∧
    ((Backtest.rotStep (fun _ => [(0, ⟨2, 2, 1⟩)]) ["A"] [("A", [(7, 1)])] 1 3 (3 / 2)
        { cash := 0, positions := [("A", 5)], values := [], trades := [],
          lastRebalance := none } 0).positions = [("A", 5)] ∧
      (Backtest.rotStep (fun _ => [(0, ⟨2, 2, 1⟩)]) ["A"] [("A", [(7, 1)])] 1 3 (3 / 2)
        { cash := 0, positions := [("A", 5)], values := [], trades := [],
          lastRebalance := none } 0).trades = [] ∧
      (Backtest.rotStep (fun _ => [(0, ⟨2, 2, 1⟩)]) ["A"] [("A", [(7, 1)])] 1 3 (3 / 2)
        { cash := 0, positions := [("A", 5)], values := [], trades := [],
          lastRebalance := none } 0).lastRebalance = none) :=
  ⟨(rebalance_gate_requires_rs_index (fun _ => [(0, ⟨2, 2, 1⟩)]) ["A"]
      [("A", [(0, 1)])] 1 3 (3 / 2)
      { cash := 0, positions := [("A", 5)], values := [], trades := [],
        lastRebalance := none } 0 (by decide) (by decide)).1 (by decide),
    (rebalance_gate_requires_rs_index (fun _ => [(0, ⟨2, 2, 1⟩)]) ["A"]
      [("A", [(7, 1)])] 1 3 (3 / 2)
      { cash := 0, positions := [("A", 5)], values := [], trades := [],
        lastRebalance := none } 0 (by decide) (by decide)).2 (by decide)⟩

set_option maxRecDepth 400000 in
unseal Rat.add Rat.mul Rat.inv Rat.sub in
/-- C3 counterexample: the cadence condition alone is NOT sufficient.  In
this 25-business-day run (`rebalance_freq = 1`, `top_n = 1`), the ETF `A`
trades every day and the single BUY happens at the day-22 rebalance, so
`("A", 10000/23)` is held from day 22 on; days 23 and 24 are processed
(`A` has bars, the tradability gate does not look at the benchmark) and
satisfy the cadence (`day - 22 ≥ 1`), yet — the benchmark having no bars
after day 22, so those days are missing from the relative-strength index —
no rebalance runs there: the final state still holds the position, the
trade ledger contains no SELL at all, and the last rebalance remains day
22. -/
theorem rebalance_cadence_not_sufficient_cex :
    (match Backtest.runRotation rotCexDb rotCexDates ["A"] "B" 1 1 (3 / 2) with
      | .ok st => some (st.positions, st.trades, st.lastRebalance)
      | .error _ => none) =
      some ([("A", 10000 / 23)],
        [⟨22, "A", "BUY", 10000 / 23, 23, 10000⟩], some 22) ∧
    (23 : ℤ) ∈ rotCexDates ∧ (24 : ℤ) ∈ rotCexDates ∧
    Backtest.tradable rotCexDb ["A"] 23 = true ∧
    Backtest.tradable rotCexDb ["A"] 24 = true ∧
    Backtest.rebalanceDue (some 22) 23 1 = true ∧
    Backtest.rebalanceDue (some 22) 24 1 = true := by
  refine ⟨by decide, by decide, by decide, by decide, by decide, by decide, by decide⟩

/-! ## C5 — ranking selection and the position bound -/

theorem orderedInsert_filter_snd (a : TSym × ℝ) (l : List (TSym × ℝ)) (v : ℝ) :
    (List.orderedInsert (fun p q : TSym × ℝ => q.2 ≤ p.2) a l).filter
        (fun p => decide (p.2 = v)) =
      if a.2 = v then a :: l.filter (fun p => decide (p.2 = v))
      else l.filter (fun p => decide (p.2 = v)) := by
  rw [List.orderedInsert_eq_take_drop, List.filter_append]
  by_cases hav : a.2 = v
  · have htake : (l.takeWhile fun b =>
        decide ¬((fun p q : TSym × ℝ => q.2 ≤ p.2) a b)).filter
          (fun p => decide (p.2 = v)) = [] := by
      rw [List.filter_eq_nil_iff]
      intro b hb
      have hbp := List.mem_takeWhile_imp hb
      simp only [decide_eq_true_eq] at hbp ⊢
      intro hbv
      exact hbp (le_of_eq (hav ▸ hbv.symm ▸ rfl))
    rw [if_pos hav, htake, List.nil_append, List.filter_cons]
    simp only [hav, decide_eq_true_eq, if_pos trivial, decide_True, if_true]
    conv_rhs => rw [← List.takeWhile_append_dropWhile
      (fun b => decide ¬((fun p q : TSym × ℝ => q.2 ≤ p.2) a b)) l]
    rw [List.filter_append, htake, List.nil_append]
    simp [hav]
  · rw [if_neg hav]
    conv_rhs => rw [← List.takeWhile_append_dropWhile
      (fun b => decide ¬((fun p q : TSym × ℝ => q.2 ≤ p.2) a b)) l]
    rw [List.filter_append]
    congr 1
    rw [List.filter_cons]
    simp [hav]

theorem insertionSort_filter_snd (l : List (TSym × ℝ)) (v : ℝ) :
    (List.insertionSort (fun p q : TSym × ℝ => q.2 ≤ p.2) l).filter
        (fun p => decide (p.2 = v)) =
      l.filter (fun p => decide (p.2 = v)) := by
  induction l with
  | nil => rfl
  | cons a as ih =>
    rw [List.insertionSort, orderedInsert_filter_snd, List.filter_cons]
    by_cases hav : a.2 = v
    · simp [hav, ih]
    · simp [hav, ih]

theorem dictSet_length (l : List (TSym × ℚ)) (s : TSym) (v : ℚ) :
    (Backtest.dictSet l s v).length ≤ l.length + 1 := by
  rw [Backtest.dictSet]
  by_cases h : l.any (fun p => p.1 = s)
  · simp [h]
  · simp only [h]
    simp

theorem buyAll_cons_priced (db : TSym → List (ℤ × Signals.Bar)) (d : ℤ)
    (alloc : ℚ) (s : TSym) (rest : List TSym) (c : ℚ)
    (pos : List (TSym × ℚ)) (ts : List Backtest.Trade) (q : ℚ)
    (h : Backtest.adjCloseAt (db s) d = some q) :
    Backtest.buyAll db d alloc (s :: rest) c pos ts =
      Backtest.buyAll db d alloc rest (c - alloc)
        (Backtest.dictSet pos s (alloc / q))
        (ts ++ [⟨d, s, "BUY", alloc / q, q, alloc⟩]) := by
  simp only [Backtest.buyAll, h]

theorem buyAll_cons_unpriced (db : TSym → List (ℤ × Signals.Bar)) (d : ℤ)
    (alloc : ℚ) (s : TSym) (rest : List TSym) (c : ℚ)
    (pos : List (TSym × ℚ)) (ts : List Backtest.Trade)
    (h : Backtest.adjCloseAt (db s) d = none) :
    Backtest.buyAll db d alloc (s :: rest) c pos ts =
      Backtest.buyAll db d alloc rest c pos ts := by
  simp only [Backtest.buyAll, h]

theorem buyAll_pos_length (db : TSym → List (ℤ × Signals.Bar)) (d : ℤ)
    (alloc : ℚ) (cands : List TSym) : ∀ (c : ℚ) (pos : List (TSym × ℚ))
    (ts : List Backtest.Trade),
    (Backtest.buyAll db d alloc cands c pos ts).2.1.length ≤
      pos.length + cands.length := by
  induction cands with
  | nil => intro c pos ts; simp [Backtest.buyAll]
  | cons s rest ih =>
    intro c pos ts
    rcases hs : Backtest.adjCloseAt (db s) d with _ | q
    · rw [buyAll_cons_unpriced db d alloc s rest c pos ts hs]
      calc (Backtest.buyAll db d alloc rest c pos ts).2.1.length
          ≤ pos.length + rest.length := ih c pos ts
        _ ≤ pos.length + (s :: rest).length := by simp
    · rw [buyAll_cons_priced db d alloc s rest c pos ts q hs]
      calc (Backtest.buyAll db d alloc rest (c - alloc)
              (Backtest.dictSet pos s (alloc / q))
              (ts ++ [⟨d, s, "BUY", alloc / q, q, alloc⟩])).2.1.length
          ≤ (Backtest.dictSet pos s (alloc / q)).length + rest.length := ih _ _ _
        _ ≤ (pos.length + 1) + rest.length := by
            have := dictSet_length pos s (alloc / q)
            omega
        _ = pos.length + (s :: rest).length := by simp [List.length_cons]; omega

/-- C5: the sector ranking takes the `top_n` largest trailing means in
descending order with stable ties, and immediately after any rebalance the
number of held positions is at most `top_n`.  Conjuncts: the selected list
has length at most `top_n`; the ranked list is sorted descending by mean;
it is a permutation of the per-instrument trailing means; ties (equal
means) keep their original column order; and a processed rebalance day
(cadence met, day in the relative-strength index, held positions priced)
ends with at most `top_n` positions. -/
theorem sector_ranking_and_position_bound :
    (∀ (tbl : RS.NormTable) (topN lookback : ℕ),
        (RS.sectorRotationList tbl topN lookback).length ≤ topN) ∧
    (∀ (tbl : RS.NormTable) (lookback : ℕ),
        List.Sorted (fun p q : TSym × ℝ => q.2 ≤ p.2)
          (List.insertionSort (fun p q : TSym × ℝ => q.2 ≤ p.2)
            (RS.rankMeans tbl lookback))) ∧
    (∀ (tbl : RS.NormTable) (lookback : ℕ),
        List.Perm
          (List.insertionSort (fun p q : TSym × ℝ => q.2 ≤ p.2)
            (RS.rankMeans tbl lookback))
          (RS.rankMeans tbl lookback)) ∧
    (∀ (tbl : RS.NormTable) (lookback : ℕ) (v : ℝ),
        (List.insertionSort (fun p q : TSym × ℝ => q.2 ≤ p.2)
            (RS.rankMeans tbl lookback)).filter (fun p => decide (p.2 = v)) =
          (RS.rankMeans tbl lookback).filter (fun p => decide (p.2 = v))) ∧
    (∀ (db : TSym → List (ℤ × Signals.Bar)) (etfSymbols : List TSym)
        (rsData : RS.RSTable) (freq : ℤ) (topN : ℕ) (threshold : ℚ)
        (st : Backtest.RotState) (d : ℤ),
        Backtest.tradable db etfSymbols d = true →
        Backtest.rebalanceDue st.lastRebalance d freq = true →
        (RS.unionDates rsData).contains d = true →
        (∀ p ∈ st.positions, (Backtest.adjCloseAt (db p.1) d).isSome) →
        (Backtest.rotStep db etfSymbols rsData freq topN threshold st
            d).positions.length ≤ topN) := by
  refine ⟨?_, ?_, ?_, ?_, ?_⟩
  · intro tbl topN lookback
    rw [RS.sectorRotationList]
    exact List.length_take_le _ _
  · intro tbl lookback
    haveI : IsTotal (TSym × ℝ) (fun p q : TSym × ℝ => q.2 ≤ p.2) :=
      ⟨fun a b => le_total b.2 a.2⟩
    haveI : IsTrans (TSym × ℝ) (fun p q : TSym × ℝ => q.2 ≤ p.2) :=
      ⟨fun a b c hab hbc => le_trans hbc hab⟩
    exact List.sorted_insertionSort _ _
  · intro tbl lookback
    exact List.perm_insertionSort _ _
  · intro tbl lookback v
    exact insertionSort_filter_snd _ v
  · intro db etfSymbols rsData freq topN threshold st d htrad hdue hmem hpriced
    simp only [Backtest.rotStep, htrad, hdue, hmem, if_true]
    rw [rebalanceExec_eq]
    obtain ⟨hcash, hkept⟩ := liquidateAll_priced db d st.positions st.cash hpriced
    by_cases hc : (List.filter
        (fun s => Backtest.hasDate (db s) d &&
          Backtest.hasRecentBuy (Backtest.barsUpTo (db s) d) threshold)
        (RS.sectorRotationList
          (RS.zscoreTable (rsData.map (fun c =>
            (c.1, c.2.filter (fun p => decide (p.1 ≤ d)))))) topN 20)).isEmpty
    · simp only [hc, if_true, hkept]
      simp
    · simp only [hc, Bool.false_eq_true, if_false, hkept]
      calc (Backtest.buyAll db d _ _ _ [] _).2.1.length
          ≤ ([] : List (TSym × ℚ)).length + (List.filter
              (fun s => Backtest.hasDate (db s) d &&
                Backtest.hasRecentBuy (Backtest.barsUpTo (db s) d) threshold)
              (RS.sectorRotationList
                (RS.zscoreTable (rsData.map (fun c =>
                  (c.1, c.2.filter (fun p => decide (p.1 ≤ d)))))) topN 20)).length :=
            buyAll_pos_length db d _ _ _ _ _
        _ ≤ (RS.sectorRotationList
              (RS.zscoreTable (rsData.map (fun c =>
                (c.1, c.2.filter (fun p => decide (p.1 ≤ d)))))) topN 20).length := by
            simp only [List.length_nil, Nat.zero_add]
            exact List.length_filter_le _ _
        _ ≤ topN := by
            rw [RS.sectorRotationList]
            exact List.length_take_le _ _

/-- C5 witness: the length bound on a concrete one-column table and the
position bound on a concrete processed rebalance day with `top_n = 2`. -/
theorem sector_ranking_and_position_bound_witness :
    (RS.sectorRotationList [("A", [(0, (1 : ℝ))])] 1 1).length ≤ 1 ∧
    (Backtest.rotStep (fun _ => [(0, ⟨2, 2, 1⟩)]) ["A"] [("A", [(0, 1)])] 1 2 (3 / 2)
        { cash := 100, positions := [], values := [], trades := [],
          lastRebalance := none } 0).positions.length ≤ 2 :=
  ⟨sector_ranking_and_position_bound.1 _ 1 1,
    sector_ranking_and_position_bound.2.2.2.2 _ _ _ _ _ _ _ _ (by decide) (by decide)
      (by decide) (by intro p hp; simp at hp)⟩
